import Mathlib

/-
A verification development for the request/response protocol core of the
libnavajo HTTPS-server library.  The C++ sources embedded here are:

  * HttpRequest.hh      — parameter / cookie decoding, session binding
  * nvjGzip.h           — one-shot and streaming gzip/gunzip drivers
  * MPFDParser Field.cc — multipart form-data fields

Strings are modelled as lists of byte values (Nat, one per char), std::map
as an association list with insert-or-overwrite, exceptions as Except, and
the zlib codec calls as an explicit oracle (a list of per-call responses),
since zlib itself is an external library.
-/

namespace Navajo

/-- Byte-list view of an ASCII string literal (models std::string contents). -/
def bytes (s : String) : List Nat := s.data.map Char.toNat

/-! ## Association-list model of std::map<std::string,std::string>

`insertMap` models `m[key] = value`: it overwrites the value in place when
the key is present and appends otherwise.  `lookupMap` models `m.find`. -/

def insertMap (m : List (List Nat × List Nat)) (k v : List Nat) :
    List (List Nat × List Nat) :=
  match m with
  | [] => [(k, v)]
  | (k', v') :: rest =>
    if k' = k then (k', v) :: rest else (k', v') :: insertMap rest k v

def lookupMap (m : List (List Nat × List Nat)) (k : List Nat) :
    Option (List Nat) :=
  match m with
  | [] => none
  | (k', v) :: rest => if k' = k then some v else lookupMap rest k

/-! ## HttpRequest::decodParams — pass 1 (percent / plus decoding)

The C++ loop scans `paramstr` with `find_first_of("%+")`, mutating in
place and resuming the scan just after each replacement, which is
equivalent to the left-to-right recursion below.

`hexParse2` models `std::stringstream ss; ss << std::hex << hexChar.c_str();
ss >> specar;` applied to the (at most two-byte) string `hexChar`:
`c_str()` truncates at an embedded NUL, extraction skips leading
whitespace and an optional plus sign, then consumes a maximal run of hex
digits; a failed extraction writes 0 (C++11 semantics). -/

def hexDigitVal (c : Nat) : Option Nat :=
  if 48 ≤ c ∧ c ≤ 57 then some (c - 48)
  else if 97 ≤ c ∧ c ≤ 102 then some (c - 87)
  else if 65 ≤ c ∧ c ≤ 70 then some (c - 55)
  else none

def takeCStr : List Nat → List Nat
  | [] => []
  | 0 :: _ => []
  | c :: r => c :: takeCStr r

def isSpaceByte (c : Nat) : Bool := c = 32 ∨ (9 ≤ c ∧ c ≤ 13)

def hexVal : List Nat → Nat → Nat
  | [], acc => acc
  | c :: r, acc =>
    match hexDigitVal c with
    | some d => hexVal r (acc * 16 + d)
    | none => acc

def hexParse2 (l : List Nat) : Nat :=
  let l1 := (takeCStr l).dropWhile isSpaceByte
  let l2 := match l1 with
            | 43 :: r => r
            | _ => l1
  hexVal l2 0

/-- Pass 1 of `HttpRequest::decodParams`: percent / plus decoding.
`%%` collapses to `%` (erase one char, resume after the kept `%`);
otherwise `%` is replaced by the byte value of the two following
characters read as hex (`substr(end+1,2)` clamps at the string end, and
`paramstr[end+1]` at the very end reads the terminating NUL, hence the
patterns for zero or one remaining character); `+` becomes a space;
everything else is copied unchanged. -/
def decodeSpecials : List Nat → List Nat
  | [] => []
  | 37 :: 37 :: rest => 37 :: decodeSpecials rest
  | 37 :: [] => [hexParse2 [] % 256]
  | 37 :: c :: [] => [hexParse2 [c] % 256]
  | 37 :: c :: d :: rest => (hexParse2 [c, d] % 256) :: decodeSpecials rest
  | 43 :: rest => 32 :: decodeSpecials rest
  | c :: rest => c :: decodeSpecials rest

/-! ## HttpRequest::decodParams — pass 2 (splitting) -/

/-- Split on `&` (byte 38), keeping empty segments, exactly as the
`find('&')` / `substr` loop does: `n` separators yield `n+1` segments. -/
def splitOnAmp : List Nat → List (List Nat)
  | [] => [[]]
  | 38 :: rest => [] :: splitOnAmp rest
  | c :: rest =>
    match splitOnAmp rest with
    | s :: ss => (c :: s) :: ss
    | [] => [[c]]

/-- Index of the first occurrence of byte `c`, models `std::string::find`. -/
def findChar (c : Nat) : List Nat → Option Nat
  | [] => none
  | x :: xs => if x = c then some 0 else (findChar c xs).map (· + 1)

/-- One segment of pass 2: no `=` maps the whole segment to the empty
value, otherwise the first `=` splits key from value. -/
def paramSeg (m : List (List Nat × List Nat)) (seg : List Nat) :
    List (List Nat × List Nat) :=
  match findChar 61 seg with
  | none => insertMap m seg []
  | some i => insertMap m (seg.take i) (seg.drop (i + 1))

/-- Pass 2 of `HttpRequest::decodParams` run on an initially empty
`parameters` map (the constructor calls `decodParams` exactly once). -/
def decodParamsPass2 (s : List Nat) : List (List Nat × List Nat) :=
  (splitOnAmp s).foldl paramSeg []

/-- `HttpRequest::decodParams`: pass 1 (percent/plus decoding) followed by
pass 2 (splitting on `&` and the first `=`). -/
def decodParams (p : List Nat) : List (List Nat × List Nat) :=
  decodParamsPass2 (decodeSpecials p)

/-! ## HttpRequest::decodCookies -/

/-- Raw split on `;` (byte 59), keeping empty fragments. -/
def splitOnSemi : List Nat → List (List Nat)
  | [] => [[]]
  | 59 :: rest => [] :: splitOnSemi rest
  | c :: rest =>
    match splitOnSemi rest with
    | s :: ss => (c :: s) :: ss
    | [] => [[c]]

/-- Fragments produced by the `std::getline(ss, theCookie, ';')` loop:
like `splitOnSemi`, except that a final empty fragment is not yielded
(getline fails at end-of-stream without extracting anything). -/
def getlineFrags (s : List Nat) : List (List Nat) :=
  let ps := splitOnSemi s
  if ps.getLast? = some [] then ps.dropLast else ps

/-- ASCII model of `iswgraph`: printable and not a space. -/
def iswgraphB (c : Nat) : Bool := 33 ≤ c ∧ c ≤ 126

/-- The `firstC` scan: starting at 0, advance over non-graphic characters
but never past `posEq`.  Equivalent closed form: the index of the first
graphic character, capped at `posEq` (all indices below `posEq` are in
range since `posEq` is the index of `=`). -/
def firstCIdx (frag : List Nat) (posEq : Nat) : Nat :=
  match (frag.take posEq).findIdx? iswgraphB with
  | some j => j
  | none => posEq

/-- One fragment of `HttpRequest::decodCookies`.  Note the second guard
`theCookie.length() - posEq > 0` of the source is kept verbatim: since
`posEq < length` whenever `find('=')` succeeds, it is always true, so a
fragment like `foo=` is inserted with an empty value. -/
def cookieFrag (m : List (List Nat × List Nat)) (frag : List Nat) :
    List (List Nat × List Nat) :=
  match findChar 61 frag with
  | none => m
  | some posEq =>
    let fc := firstCIdx frag posEq
    if posEq - fc > 0 ∧ frag.length - posEq > 0 then
      insertMap m ((frag.drop fc).take (posEq - fc)) (frag.drop (posEq + 1))
    else m

/-- `HttpRequest::decodCookies` run on an initially empty `cookies` map. -/
def decodCookies (c : List Nat) : List (List Nat × List Nat) :=
  (getlineFrags c).foldl cookieFrag []

/-! ## Instrumented and checked variants of pass-1 decoding

`decodeSpecialsTracked` is `decodeSpecials` instrumented with a flag that
becomes true whenever a `%` that is not part of `%%` is followed by fewer
than two characters, i.e. exactly when the source evaluates
`paramstr[end+1]` at the terminating NUL or lets `substr(end+1,2)` clamp
at the string end instead of reading two hex digits.

`decodeSpecialsChecked` is the checked decode the spec's design notes ask
for: it fails closed on a truncated or non-hex escape and otherwise
agrees with `decodeSpecials`. -/

def decodeSpecialsTracked : List Nat → List Nat × Bool
  | [] => ([], false)
  | 37 :: 37 :: rest =>
    let r := decodeSpecialsTracked rest
    (37 :: r.1, r.2)
  | 37 :: [] => ([hexParse2 [] % 256], true)
  | 37 :: c :: [] => ([hexParse2 [c] % 256], true)
  | 37 :: c :: d :: rest =>
    let r := decodeSpecialsTracked rest
    ((hexParse2 [c, d] % 256) :: r.1, r.2)
  | 43 :: rest =>
    let r := decodeSpecialsTracked rest
    (32 :: r.1, r.2)
  | c :: rest =>
    let r := decodeSpecialsTracked rest
    (c :: r.1, r.2)

def decodeSpecialsChecked : List Nat → Except String (List Nat)
  | [] => .ok []
  | 37 :: 37 :: rest => (decodeSpecialsChecked rest).map (37 :: ·)
  | 37 :: [] => .error "truncated percent escape"
  | 37 :: _ :: [] => .error "truncated percent escape"
  | 37 :: c :: d :: rest =>
    match hexDigitVal c, hexDigitVal d with
    | some hc, some hd => (decodeSpecialsChecked rest).map ((hc * 16 + hd) :: ·)
    | _, _ => .error "invalid percent escape"
  | 43 :: rest => (decodeSpecialsChecked rest).map (32 :: ·)
  | c :: rest => (decodeSpecialsChecked rest).map (c :: ·)

/-! ## HttpRequest session surface

`HttpSession` itself is not part of the sources.  Modelled from the spec:
the Session Store is a process-wide keyed store with `find(id) -> bool`
and `remove(id)`; we model the set of live session ids as a list of
strings, `find` as membership and `remove` as deleting the id.  The
request-side code (`isSessionValid`, `removeSession`) is embedded from
HttpRequest.hh: note that `removeSession` only calls
`HttpSession::remove(sessionId)` and never assigns `sessionId`. -/

structure HttpRequest where
  sessionId : String
  store : List String
deriving DecidableEq

def HttpRequest.isSessionValid (r : HttpRequest) : Bool :=
  r.sessionId ≠ ""

def HttpRequest.removeSession (r : HttpRequest) : HttpRequest :=
  if r.sessionId = "" then r
  else { r with store := r.store.filter (fun x => x ≠ r.sessionId) }

/-- Session-store lookup `HttpSession::find` (modelled from the spec). -/
def HttpRequest.findSession (r : HttpRequest) (id : String) : Bool :=
  id ∈ r.store

end Navajo

/-! ## MPFD::Field (multipart form-data field) -/

namespace MPFD

/-- `Modelled from the spec:` the tag constants `TextType` and `FileType`
live in the missing header Field.h; the code only requires two distinct
nonzero values (0 is the constructor's unset state, `GetType` rejects
`type ≤ 0`). -/
def TextType : Nat := 1

def FileType : Nat := 2

/-- `Modelled from the spec:` the storage-mode constants of Parser.h;
again only distinctness matters. -/
def StoreUploadedFilesInFilesystem : Nat := 1

def StoreUploadedFilesInMemory : Nat := 2

/-- The data of MPFD::Field.  `FieldContent` is the growable byte buffer
(std::vector-like, value-initialised growth); `fileBytes` models the
bytes written-and-flushed to the temp file in filesystem mode (the
probe-and-create naming of the temp file is file-system I/O and is not
part of this pure model). -/
structure Field where
  type : Nat
  FieldContent : List Nat
  fileBytes : List Nat
  TempDir : String
  WhereToStoreUploadedFiles : Nat
deriving DecidableEq

/-- `MPFD::Field::Field()`: only `type` is initialised (to 0); the other
members are default-constructed empties (the storage-mode int is left
unset in C++, modelled as 0 — no claim depends on its initial value). -/
def Field.init : Field :=
  { type := 0, FieldContent := [], fileBytes := [], TempDir := ""
    WhereToStoreUploadedFiles := 0 }

/-- `MPFD::Field::SetType`: accepts `TextType` or `FileType` (assigning
unconditionally, also over an already-set tag) and throws otherwise. -/
def Field.SetType (f : Field) (t : Nat) : Except String Field :=
  if t = TextType ∨ t = FileType then .ok { f with type := t }
  else .error "Trying to set type of field, but type is incorrect."

/-- `MPFD::Field::AcceptSomeData`.  Text branch: `resize` to
`size + length + 1` (zero-filling), `memcpy` the chunk at the old size,
and set the last byte to 0 — i.e. append `data ++ [0]` after the
previous contents *including* the previous trailing zero.  File branch:
filesystem mode writes-and-flushes to the temp file (requires a
configured `TempDir`), memory mode appends without a terminator. -/
def Field.AcceptSomeData (f : Field) (data : List Nat) : Except String Field :=
  if f.type = TextType then
    .ok { f with FieldContent := f.FieldContent ++ data ++ [0] }
  else if f.type = FileType then
    if f.WhereToStoreUploadedFiles = StoreUploadedFilesInFilesystem then
      if f.TempDir.length > 0 then
        .ok { f with fileBytes := f.fileBytes ++ data }
      else .error "Trying to AcceptSomeData for a file but no TempDir is set."
    else .ok { f with FieldContent := f.FieldContent ++ data }
  else .error "Trying to AcceptSomeData but no type was set."

/-- `MPFD::Field::GetTextTypeContent`: errors when the type is unset or
not text; otherwise `std::string(&FieldContent[0])` reads the buffer up
to the first NUL byte (empty buffer short-circuits to the empty
string). -/
def Field.GetTextTypeContent (f : Field) : Except String (List Nat) :=
  if f.type = 0 then
    .error "Trying to get text content of the field, but no type was set."
  else if f.type ≠ TextType then
    .error "Trying to get content of the field, but the type is not text."
  else if f.FieldContent = [] then .ok []
  else .ok (f.FieldContent.takeWhile (fun c => c ≠ 0))

/-- `MPFD::Field::GetFileContentSize` for the in-memory storage mode. -/
def Field.GetFileContentSize (f : Field) : Except String Nat :=
  if f.type = 0 then
    .error "Trying to get file content size, but no type was set."
  else if f.type = FileType then
    if f.WhereToStoreUploadedFiles = StoreUploadedFilesInMemory then
      .ok f.FieldContent.length
    else
      .error "Trying to get file content size, but uploaded files are stored in filesystem."
  else .error "Trying to get file content size, but the type is not file."

end MPFD

/-! ## nvjGzip.h — zlib driver loops

zlib itself is external, so every `deflate`/`inflate` call is answered by
an explicit oracle: a list of per-call responses consumed in order.  The
drivers below transcribe the control flow of nvjGzip.h around those
calls; buffer reallocation success is part of the oracle too. -/

namespace Navajo

def CHUNK : Nat := 16384

/-- Wrap-around constant of the C `size_t` arithmetic. -/
def U64 : Nat := 2 ^ 64

inductive ZFlush
  | noFlush
  | syncFlush
deriving DecidableEq

/-- One iteration of an output do-while loop in `nvj_gzip_websocket_v2`:
first the `realloc` growing the output by one chunk (`reallocFail` models
its failure), then the `deflate` call (`streamError` models
`Z_STREAM_ERROR`, `produce n` a successful call that wrote `n` bytes,
i.e. left `avail_out = CHUNK - n`). -/
inductive DStep
  | reallocFail
  | streamError
  | produce (n : Nat)
deriving DecidableEq

inductive FeedOut
  | diverge
  | thrown (msg : String)
  | done (produced : Nat) (rest : List DStep)
deriving DecidableEq

/-- The inner do-while of `nvj_gzip_websocket_v2`: grow the buffer, call
`deflate`, accumulate `CHUNK - avail_out`, repeat while `avail_out == 0`.
`diverge` marks an exhausted oracle (the loop would keep running). -/
def feedLoop : List DStep → Nat → FeedOut
  | [], _ => .diverge
  | .reallocFail :: _, _ => .thrown "gzip : (re)allocating memory"
  | .streamError :: _, _ => .thrown "gzip : deflate error"
  | .produce n :: rest, acc =>
    if n = CHUNK then feedLoop rest (acc + n) else .done (acc + n) rest

inductive LoopOut
  | diverge
  | thrown (msg : String)
  | done (produced : Nat) (trace : List (Nat × ZFlush)) (rest : List DStep)
deriving DecidableEq

/-- The `for (i = 0; i < iterations; i++)` loop of
`nvj_gzip_websocket_v2`, recursing on the number `k` of iterations still
to run (so the current index is `iterations - k`).  Each iteration feeds
`avail_in = CHUNK` with `Z_SYNC_FLUSH` exactly when it is the last one
and there is no remainder, `Z_NO_FLUSH` otherwise; the trace records the
(avail_in, flush) pair of each feed. -/
def wsLoop (iterations rmndr : Nat) : Nat → List DStep → LoopOut
  | 0, steps => .done 0 [] steps
  | Nat.succ k, steps =>
    let i := iterations - Nat.succ k
    let flush := if i = iterations - 1 ∧ rmndr = 0 then ZFlush.syncFlush
                 else ZFlush.noFlush
    match feedLoop steps 0 with
    | .diverge => .diverge
    | .thrown m => .thrown m
    | .done produced rest =>
      match wsLoop iterations rmndr k rest with
      | .diverge => .diverge
      | .thrown m => .thrown m
      | .done p2 tr rest2 =>
        .done (produced + p2) ((CHUNK, flush) :: tr) rest2

inductive WsOut
  | diverge
  | thrown (msg : String)
  | ok (trace : List (Nat × ZFlush)) (produced ret : Nat)
deriving DecidableEq

/-- `nvj_gzip_websocket_v2`: full chunks through the for loop, then the
remainder (if any) fed with `Z_SYNC_FLUSH`, then the unconditional
`sizeDst -= 4` trim (size_t arithmetic, hence the mod-`2^64` form) and
the final shrinking realloc, whose success is the `finalReallocOk`
oracle bit.  The returned `ok` carries the feed trace, the total number
of bytes the deflate calls produced, and the returned size. -/
def nvj_gzip_websocket_v2 (sizeSrc : Nat) (steps : List DStep)
    (finalReallocOk : Bool) : WsOut :=
  match wsLoop (sizeSrc / CHUNK) (sizeSrc % CHUNK) (sizeSrc / CHUNK) steps with
  | .diverge => .diverge
  | .thrown m => .thrown m
  | .done produced trace rest =>
    if sizeSrc % CHUNK ≠ 0 then
      match feedLoop rest 0 with
      | .diverge => .diverge
      | .thrown m => .thrown m
      | .done p2 _ =>
        if finalReallocOk then
          .ok (trace ++ [(sizeSrc % CHUNK, ZFlush.syncFlush)]) (produced + p2)
            ((produced + p2 + (U64 - 4)) % U64)
        else .thrown "gzip : (re)allocating memory"
    else
      if finalReallocOk then
        .ok trace produced ((produced + (U64 - 4)) % U64)
      else .thrown "gzip : (re)allocating memory"

/-- The feed schedule the spec describes: the input split into 16 KiB
chunks plus a remainder, every feed before the final one with no-flush
and the final feed with sync-flush. -/
def claimFeeds (sizeSrc : Nat) : List (Nat × ZFlush) :=
  let sizes := List.replicate (sizeSrc / CHUNK) CHUNK ++
    (if sizeSrc % CHUNK ≠ 0 then [sizeSrc % CHUNK] else [])
  sizes.dropLast.map (fun n => (n, ZFlush.noFlush)) ++
    ((sizes.getLast?).map (fun n => (n, ZFlush.syncFlush))).toList

/-! ## nvj_gunzip (one-shot decompression) -/

inductive ZRet
  | zOk
  | zStreamEnd
  | zNeedDict
  | zDataError
  | zMemError
  | zBufError
  | zStreamError
deriving DecidableEq

/-- Oracle response for one iteration of the `nvj_gunzip` do-while loop:
the `inflate` return code, the bytes written (`CHUNK - avail_out`), and
the success of the growth `realloc` should the loop repeat. -/
structure InfStep where
  ret : ZRet
  produced : Nat
  reallocOk : Bool
deriving DecidableEq

/-- Outcome of `nvj_gunzip`: an exception carries whether the output
buffer had been allocated and whether it was freed before the throw. -/
inductive GunzipOut
  | diverge
  | thrown (msg : String) (allocated freed : Bool)
  | ok (size : Nat)
deriving DecidableEq

/-- The do-while loop of `nvj_gunzip`, iteration counter `i` starting at
0.  `Z_STREAM_ERROR` frees and throws; `Z_NEED_DICT`, `Z_DATA_ERROR` and
`Z_MEM_ERROR` end the stream, free and throw; any other return code
(including `Z_BUF_ERROR`, which is what zlib reports when `avail_in` is
0) falls through.  The loop repeats only while `avail_out == 0`, growing
the buffer by one chunk first; on exit it returns
`sizeDst - avail_out = CHUNK * i + produced`. -/
def gunzipLoop : List InfStep → Nat → GunzipOut
  | [], _ => .diverge
  | s :: rest, i =>
    if s.ret = ZRet.zStreamError then
      .thrown "gunzip : inflate Z_STREAM_ERROR" true true
    else if s.ret = ZRet.zNeedDict ∨ s.ret = ZRet.zDataError ∨
        s.ret = ZRet.zMemError then
      .thrown "gunzip : inflate error" true true
    else if s.produced = CHUNK then
      if s.reallocOk then gunzipLoop rest (i + 1)
      else .thrown "gunzip : (re)allocating memory" true true
    else .ok (CHUNK * i + s.produced)

/-- `nvj_gunzip`: null-source check, `inflateInit2`, the initial
`malloc`, then the inflate loop.  `sizeSrc` is the length of the input
handed to zlib as `avail_in`; the driver itself branches on it nowhere —
an empty input only influences what the inflate oracle answers. -/
def nvj_gunzip (srcNull : Bool) (sizeSrc : Nat) (initOk mallocOk : Bool)
    (steps : List InfStep) : GunzipOut :=
  if srcNull then .thrown "gunzip : src == NULL !" false false
  else if ¬initOk then .thrown "gunzip : inflateInit2 error" false false
  else if ¬mallocOk then .thrown "gunzip : malloc error (2)" false false
  else
    let _ := sizeSrc
    gunzipLoop steps 0

end Navajo

/-! ## Helper lemmas -/

namespace Navajo

theorem lookupMap_insertMap (m : List (List Nat × List Nat)) (k v : List Nat) :
    lookupMap (insertMap m k v) k = some v := by
  induction m with
  | nil => simp [insertMap, lookupMap]
  | cons hd rest ih =>
    obtain ⟨k', v'⟩ := hd
    by_cases hk : k' = k
    · simp [insertMap, lookupMap, hk]
    · simp [insertMap, lookupMap, hk, ih]

theorem decodeSpecials_plain (s : List Nat) (h : ∀ c ∈ s, c ≠ 37 ∧ c ≠ 43) :
    decodeSpecials s = s := by
  induction s using decodeSpecials.induct <;> simp_all [decodeSpecials]

theorem decodeSpecialsTracked_fst (s : List Nat) :
    (decodeSpecialsTracked s).1 = decodeSpecials s := by
  induction s using decodeSpecialsTracked.induct <;>
    simp_all [decodeSpecialsTracked, decodeSpecials]

theorem gunzipLoop_thrown_eq (steps : List InfStep) :
    ∀ i m a f, gunzipLoop steps i = GunzipOut.thrown m a f → a = f := by
  induction steps with
  | nil => intro i m a f h; simp [gunzipLoop] at h
  | cons s rest ih =>
    intro i m a f h
    simp only [gunzipLoop] at h
    split at h
    · exact (GunzipOut.thrown.inj h).2.1.symm ▸ (GunzipOut.thrown.inj h).2.2.symm ▸ rfl
    · split at h
      · exact (GunzipOut.thrown.inj h).2.1.symm ▸ (GunzipOut.thrown.inj h).2.2.symm ▸ rfl
      · split at h
        · split at h
          · exact ih _ _ _ _ h
          · exact (GunzipOut.thrown.inj h).2.1.symm ▸ (GunzipOut.thrown.inj h).2.2.symm ▸ rfl
        · simp at h

theorem wsLoop_trace_rem (it r : Nat) (hr : r ≠ 0) :
    ∀ k steps p tr rest, wsLoop it r k steps = LoopOut.done p tr rest →
      tr = List.replicate k (CHUNK, ZFlush.noFlush) := by
  intro k
  induction k with
  | zero =>
    intro steps p tr rest h
    simp [wsLoop] at h
    simpa using h.2.1
  | succ k ih =>
    intro steps p tr rest h
    simp only [wsLoop] at h
    split at h
    · exact absurd h (by simp)
    · exact absurd h (by simp)
    · rename_i produced rest1 hfeed
      split at h
      · exact absurd h (by simp)
      · exact absurd h (by simp)
      · rename_i p2 tr2 rest2 hws
        have htr2 := ih rest1 p2 tr2 rest2 hws
        have hcons := (LoopOut.done.inj h).2.1
        simp [hr, List.replicate_succ] at hcons ⊢
        rw [← hcons, htr2]

theorem wsLoop_trace_zero (it : Nat) :
    ∀ k steps p tr rest, k ≤ it → wsLoop it 0 k steps = LoopOut.done p tr rest →
      tr = if k = 0 then []
           else List.replicate (k - 1) (CHUNK, ZFlush.noFlush) ++
             [(CHUNK, ZFlush.syncFlush)] := by
  intro k
  induction k with
  | zero =>
    intro steps p tr rest _ h
    simp [wsLoop] at h
    simpa using h.2.1
  | succ k ih =>
    intro steps p tr rest hk h
    simp only [wsLoop] at h
    split at h
    · exact absurd h (by simp)
    · exact absurd h (by simp)
    · rename_i produced rest1 hfeed
      split at h
      · exact absurd h (by simp)
      · exact absurd h (by simp)
      · rename_i p2 tr2 rest2 hws
        have htr2 := ih rest1 p2 tr2 rest2 (Nat.le_of_succ_le hk) hws
        have hcons := (LoopOut.done.inj h).2.1
        rcases Nat.eq_zero_or_pos k with hk0 | hkpos
        · subst hk0
          simp at htr2
          rw [← hcons, htr2]
          simp
        · have hcond : ¬(it - Nat.succ k = it - 1) := by omega
          have hkne : ¬(k = 0) := by omega
          rw [← hcons, htr2]
          simp [hcond, hkne]
          have hrep : List.replicate k (CHUNK, ZFlush.noFlush) =
              (CHUNK, ZFlush.noFlush) ::
                List.replicate (k - 1) (CHUNK, ZFlush.noFlush) := by
            cases k with
            | zero => omega
            | succ m => simp [List.replicate_succ]
          rw [hrep]
          simp

theorem claimFeeds_char (s : Nat) :
    claimFeeds s =
      if s % CHUNK ≠ 0 then
        List.replicate (s / CHUNK) (CHUNK, ZFlush.noFlush) ++
          [(s % CHUNK, ZFlush.syncFlush)]
      else if s / CHUNK = 0 then []
      else List.replicate (s / CHUNK - 1) (CHUNK, ZFlush.noFlush) ++
        [(CHUNK, ZFlush.syncFlush)] := by
  unfold claimFeeds
  generalize s / CHUNK = it
  generalize s % CHUNK = r
  by_cases hr : r = 0
  · subst hr
    simp
    cases it with
    | zero => simp
    | succ m =>
      rw [List.replicate_succ']
      simp [List.dropLast_concat, List.getLast?_concat, List.map_replicate]
  · simp [hr, List.dropLast_concat, List.getLast?_concat, List.map_replicate]

theorem AcceptSomeData_preserves_type (f : MPFD.Field) (data : List Nat)
    (f2 : MPFD.Field) (h : f.AcceptSomeData data = Except.ok f2) :
    f2.type = f.type := by
  unfold MPFD.Field.AcceptSomeData at h
  split at h
  · cases h; rfl
  · split at h
    · split at h
      · split at h
        · cases h; rfl
        · cases h
      · cases h; rfl
    · cases h

end Navajo

/-! ## Claim theorems -/

namespace Navajo

/-- C1: the claim states that appending the chunks "ab", "cd", "ef" to a
text Field and reading the text content yields "abcdef".  The code
instead yields "ab": each append resizes from `FieldContent.size()`,
which already counts the previous trailing zero byte, so the buffer ends
up as `ab\0cd\0ef\0` and `GetTextTypeContent` (which reads
`std::string(&FieldContent[0])`, i.e. up to the first NUL) returns only
the first chunk.  This theorem evaluates the embedded code at the
claim's failing input. -/
theorem C1_text_append_read_divergence :
    (do
      let f ← MPFD.Field.init.SetType MPFD.TextType
      let f ← f.AcceptSomeData (bytes "ab")
      let f ← f.AcceptSomeData (bytes "cd")
      let f ← f.AcceptSomeData (bytes "ef")
      f.GetTextTypeContent) = Except.ok (bytes "ab") ∧
    (do
      let f ← MPFD.Field.init.SetType MPFD.TextType
      let f ← f.AcceptSomeData (bytes "ab")
      let f ← f.AcceptSomeData (bytes "cd")
      let f ← f.AcceptSomeData (bytes "ef")
      Except.ok f.FieldContent) =
        Except.ok [97, 98, 0, 99, 100, 0, 101, 102, 0] ∧
    bytes "ab" ≠ bytes "abcdef" :=
  ⟨rfl, rfl, by decide⟩

/-- C2 counterexample: the claim states that `removeSession` makes
`isSessionValid()` false afterwards.  On the concrete request with
session id "abc" (live in the store), `isSessionValid` is still true
after `removeSession`, because `removeSession` never clears the
`sessionId` member. -/
theorem C2_removeSession_counterexample :
    (HttpRequest.mk "abc" ["abc"]).isSessionValid = true ∧
    ((HttpRequest.mk "abc" ["abc"]).removeSession).isSessionValid = true := by
  decide

/-- C2 amended: for every request with a non-empty session id,
`removeSession` removes the id from the session store (`find` on it is
false afterwards) but leaves the `sessionId` member unchanged, so
`isSessionValid()` still returns true afterwards. -/
theorem C2_removeSession_amended :
    ∀ r : HttpRequest, r.isSessionValid = true →
      (r.removeSession).sessionId = r.sessionId ∧
      (r.removeSession).isSessionValid = true ∧
      (r.removeSession).findSession r.sessionId = false := by
  intro r h
  have hne : ¬(r.sessionId = "") := by
    simpa [HttpRequest.isSessionValid] using h
  refine ⟨?_, ?_, ?_⟩ <;>
    simp [HttpRequest.removeSession, HttpRequest.isSessionValid,
      HttpRequest.findSession, hne, List.mem_filter]

/-- C2 witness: the amended statement at the concrete request
("abc", store containing "abc"). -/
theorem C2_removeSession_amended_witness :
    ((HttpRequest.mk "abc" ["abc"]).removeSession).sessionId = "abc" ∧
    ((HttpRequest.mk "abc" ["abc"]).removeSession).isSessionValid = true ∧
    ((HttpRequest.mk "abc" ["abc"]).removeSession).findSession "abc" = false :=
  C2_removeSession_amended (HttpRequest.mk "abc" ["abc"]) (by decide)

/-- C3 counterexample: the claim states that a fragment whose value is
empty after the split at `=` (such as "foo=") produces no cookie entry.
The code does add the entry `foo → ""`, because the guard
`theCookie.length() - posEq > 0` is always true when `=` was found. -/
theorem C3_cookie_emptyvalue_counterexample :
    decodCookies (bytes "foo=") = [(bytes "foo", [])] ∧
    decodCookies (bytes "foo=") ≠ [] := by
  decide

/-- C3 amended: cookie decoding skips a fragment with no `=` and a
fragment whose trimmed key is empty, but a fragment with an empty value
such as "foo=" is NOT skipped: it yields an entry with empty value (the
code's value-length guard is vacuous). -/
theorem C3_cookie_skip_amended :
    ∀ (m : List (List Nat × List Nat)) (frag : List Nat) (posEq : Nat),
      (findChar 61 frag = none → cookieFrag m frag = m) ∧
      (findChar 61 frag = some posEq → posEq - firstCIdx frag posEq = 0 →
        cookieFrag m frag = m) ∧
      cookieFrag m (bytes "foo=") = insertMap m (bytes "foo") [] := by
  intro m frag posEq
  refine ⟨?_, ?_, ?_⟩
  · intro h
    simp [cookieFrag, h]
  · intro h h0
    simp [cookieFrag, h, h0]
  · rfl

/-- C3 witness: the amended statement at the concrete fragments "nokey"
(no `=`), " =x" (empty trimmed key), and "foo=" (empty value). -/
theorem C3_cookie_skip_amended_witness :
    cookieFrag [] (bytes "nokey") = [] ∧
    cookieFrag [] (bytes " =x") = [] ∧
    cookieFrag [] (bytes "foo=") = [(bytes "foo", [])] :=
  ⟨(C3_cookie_skip_amended [] (bytes "nokey") 0).1 (by decide),
   (C3_cookie_skip_amended [] (bytes " =x") 1).2.1 (by decide) (by decide),
   by rw [(C3_cookie_skip_amended [] (bytes "foo=") 0).2.2]; rfl⟩

/-- C4 counterexample: the claim states that a `&` produced by
percent-decoding is never treated as a delimiter, so "a=x%26y" would
yield the single parameter a = "x&y".  The code decodes first and
splits afterwards, yielding a = "x" and a second parameter y = "". -/
theorem C4_decoded_delimiter_counterexample :
    decodParams (bytes "a=x%26y") =
      [(bytes "a", bytes "x"), (bytes "y", [])] ∧
    lookupMap (decodParams (bytes "a=x%26y")) (bytes "a") ≠
      some (bytes "x&y") := by
  constructor
  · rfl
  · decide

/-- C4 amended: parameter decoding is indeed two passes, percent/plus
decoding first and splitting second — but in consequence a `&` or `=`
produced by percent-decoding IS treated as a delimiter by the splitting
pass: "a=x%26y" decodes to "a=x&y" and then splits into a = "x" and
y = "". -/
theorem C4_two_pass_amended :
    (∀ p : List Nat, decodParams p = decodParamsPass2 (decodeSpecials p)) ∧
    decodeSpecials (bytes "a=x%26y") = bytes "a=x&y" ∧
    decodParams (bytes "a=x%26y") =
      [(bytes "a", bytes "x"), (bytes "y", [])] :=
  ⟨fun _ => rfl, by decide, by decide⟩

/-- C5: the streaming compress driver feeds the input in 16 KiB chunks,
no-flush for every feed before the final one and sync-flush on the final
feed (`claimFeeds` is that schedule, written from the claim), and the
returned size is the number of bytes the deflate calls produced minus 4
in `size_t` arithmetic; the trim is applied unconditionally — for empty
input no deflate call occurs (empty trace), zero bytes are produced, and
the returned size is `2^64 - 4`. -/
theorem C5_ws_schedule_and_trim :
    (∀ sizeSrc steps fOk trace produced ret,
      nvj_gzip_websocket_v2 sizeSrc steps fOk = WsOut.ok trace produced ret →
        trace = claimFeeds sizeSrc ∧ ret = (produced + (U64 - 4)) % U64) ∧
    (∀ steps, nvj_gzip_websocket_v2 0 steps true = WsOut.ok [] 0 (U64 - 4)) := by
  constructor
  · intro sizeSrc steps fOk trace produced ret h
    unfold nvj_gzip_websocket_v2 at h
    cases hw : wsLoop (sizeSrc / CHUNK) (sizeSrc % CHUNK) (sizeSrc / CHUNK) steps with
    | diverge => rw [hw] at h; simp at h
    | thrown m => rw [hw] at h; simp at h
    | done p tr rest =>
      rw [hw] at h
      dsimp only [] at h
      by_cases hr : sizeSrc % CHUNK = 0
      · rw [if_neg (by simp [hr])] at h
        cases fOk with
        | false => simp at h
        | true =>
          simp at h
          obtain ⟨htr, hp, hret⟩ := h
          have htrace := wsLoop_trace_zero (sizeSrc / CHUNK) (sizeSrc / CHUNK)
            steps p tr rest (Nat.le_refl _) (hr ▸ hw)
          refine ⟨?_, by rw [← hret, hp]⟩
          rw [← htr, htrace, claimFeeds_char]
          simp [hr]
      · rw [if_pos hr] at h
        cases hf : feedLoop rest 0 with
        | diverge => rw [hf] at h; simp at h
        | thrown m2 => rw [hf] at h; simp at h
        | done p2 rest2 =>
          rw [hf] at h
          dsimp only [] at h
          cases fOk with
          | false => simp at h
          | true =>
            simp at h
            obtain ⟨htr, hp, hret⟩ := h
            have htrace := wsLoop_trace_rem (sizeSrc / CHUNK) (sizeSrc % CHUNK)
              hr (sizeSrc / CHUNK) steps p tr rest hw
            refine ⟨?_, by rw [← hret, ← hp]⟩
            rw [← htr, htrace, claimFeeds_char]
            simp [hr]
  · intro steps
    unfold nvj_gzip_websocket_v2
    have hws : wsLoop (0 / CHUNK) (0 % CHUNK) (0 / CHUNK) steps =
        LoopOut.done 0 [] steps := by
      simp [wsLoop, CHUNK]
    rw [hws]
    have h4 : (0 + (U64 - 4)) % U64 = U64 - 4 := by
      rw [Nat.zero_add]
      exact Nat.mod_eq_of_lt (by norm_num [U64])
    simp [h4]

/-- C5 witness: a 5-byte input with one deflate call producing 10 bytes:
the schedule is a single sync-flush feed of 5 bytes and the returned
size is 10 - 4 = 6. -/
theorem C5_ws_schedule_and_trim_witness :
    [((5 : Nat), ZFlush.syncFlush)] = claimFeeds 5 ∧
      (6 : Nat) = (10 + (U64 - 4)) % U64 :=
  C5_ws_schedule_and_trim.1 5 [DStep.produce 10] true
    [(5, ZFlush.syncFlush)] 10 6 rfl

/-- C6 counterexample: the claim states that a zero-length input makes
the one-shot decompressor fail.  With an empty input zlib's `inflate`
makes no progress and returns `Z_BUF_ERROR` having written nothing —
a return code the error switch does not catch — so the driver exits its
loop and returns success with size 0 (and an allocated output buffer). -/
theorem C6_gunzip_empty_counterexample :
    nvj_gunzip false 0 true true [⟨ZRet.zBufError, 0, true⟩] =
      GunzipOut.ok 0 := by
  decide

/-- C6 amended: a null input pointer always fails with an error before
any allocation, and on every failure path the output buffer is released
exactly when it had been allocated (`allocated = freed` on every thrown
outcome). -/
theorem C6_gunzip_null_and_release :
    (∀ sizeSrc initOk mallocOk steps,
      nvj_gunzip true sizeSrc initOk mallocOk steps =
        GunzipOut.thrown "gunzip : src == NULL !" false false) ∧
    (∀ srcNull sizeSrc initOk mallocOk steps m a f,
      nvj_gunzip srcNull sizeSrc initOk mallocOk steps =
        GunzipOut.thrown m a f → a = f) := by
  constructor
  · intro _ _ _ _
    rfl
  · intro srcNull sizeSrc initOk mallocOk steps m a f h
    cases srcNull with
    | true =>
      simp [nvj_gunzip] at h
      rw [h.2.1, h.2.2]
    | false =>
      cases initOk with
      | false =>
        simp [nvj_gunzip] at h
        rw [h.2.1, h.2.2]
      | true =>
        cases mallocOk with
        | false =>
          simp [nvj_gunzip] at h
          rw [h.2.1, h.2.2]
        | true =>
          simp [nvj_gunzip] at h
          exact gunzipLoop_thrown_eq steps 0 m a f h

/-- C6 witness: the null-pointer failure at concrete arguments, and the
release property applied to that concrete failure. -/
theorem C6_gunzip_null_and_release_witness :
    nvj_gunzip true 0 true true [] =
      GunzipOut.thrown "gunzip : src == NULL !" false false ∧
    (false : Bool) = false :=
  ⟨C6_gunzip_null_and_release.1 0 true true [],
   C6_gunzip_null_and_release.2 true 0 true true []
     "gunzip : src == NULL !" false false rfl⟩

/-- C7 counterexample: decoding is not idempotent on its image: "%25"
decodes to "%", but decoding "%" again yields the one-byte NUL string
(the truncated escape parses an empty hex field as 0). -/
theorem C7_decode_not_idempotent_counterexample :
    decodeSpecials (decodeSpecials (bytes "%25")) ≠
      decodeSpecials (bytes "%25") ∧
    decodeSpecials (bytes "%25") = bytes "%" ∧
    decodeSpecials (bytes "%") = [0] := by
  decide

/-- C7 amended: percent/plus decoding maps "%25" to "%", "%%" to "%",
and "a+b" to "a b"; and it is the identity (hence idempotent) on every
string containing neither `%` nor `+` — but not on its full image, since
"%" is in the image and decodes to the NUL byte. -/
theorem C7_percent_decode_amended :
    decodeSpecials (bytes "%25") = bytes "%" ∧
    decodeSpecials (bytes "%%") = bytes "%" ∧
    decodeSpecials (bytes "a+b") = bytes "a b" ∧
    ∀ s : List Nat, (∀ c ∈ s, c ≠ 37 ∧ c ≠ 43) → decodeSpecials s = s :=
  ⟨by decide, by decide, by decide, decodeSpecials_plain⟩

/-- C7 witness: the identity part of the amended statement at the
concrete plain string "xyz". -/
theorem C7_percent_decode_amended_witness :
    decodeSpecials (bytes "xyz") = bytes "xyz" :=
  C7_percent_decode_amended.2.2.2 (bytes "xyz") (by decide)

/-- C8: parameter parsing of "a=1&b=&c" yields exactly
{a → "1", b → "", c → ""} (a segment with no `=` maps to the empty
value), "a=1&a=2" yields {a → "2"}, and map insertion always lets a
later occurrence of a key overwrite the earlier one. -/
theorem C8_param_parsing :
    decodParams (bytes "a=1&b=&c") =
      [(bytes "a", bytes "1"), (bytes "b", []), (bytes "c", [])] ∧
    decodParams (bytes "a=1&a=2") = [(bytes "a", bytes "2")] ∧
    ∀ (m : List (List Nat × List Nat)) (k v : List Nat),
      lookupMap (insertMap m k v) k = some v :=
  ⟨by decide, by decide, lookupMap_insertMap⟩

/-- C9: the source reads the two characters after `%` without validating
them: the tracked decode flags an out-of-range read on the truncated
escapes "%" (bare percent at the end) and "ab%4" (`%X` at the end), the
instrumented decode computes the same output as the plain embedding on
every input, and a faithful checked decode reaches its error branch on
exactly such inputs while agreeing with the source's decode on a
well-formed one. -/
theorem C9_truncated_escape :
    (∀ s : List Nat, (decodeSpecialsTracked s).1 = decodeSpecials s) ∧
    (decodeSpecialsTracked (bytes "%")).2 = true ∧
    (decodeSpecialsTracked (bytes "ab%4")).2 = true ∧
    decodeSpecialsChecked (bytes "abc%") =
      Except.error "truncated percent escape" ∧
    decodeSpecialsChecked (bytes "ab%4") =
      Except.error "truncated percent escape" ∧
    decodeSpecialsChecked (bytes "a+b%2fc") =
      Except.ok (decodeSpecials (bytes "a+b%2fc")) :=
  ⟨decodeSpecialsTracked_fst, by decide, by decide, by rfl, by rfl, by rfl⟩

/-- C10 counterexample: the claim states the type tag is fixed once set.
Setting a Field's type to Text and then to File leaves the tag at File:
the second valid `SetType` overwrites the first. -/
theorem C10_settype_overwrite_counterexample :
    ((MPFD.Field.init.SetType MPFD.TextType).bind
        (fun f => f.SetType MPFD.FileType)).map MPFD.Field.type =
      Except.ok MPFD.FileType ∧
    MPFD.FileType ≠ MPFD.TextType :=
  ⟨rfl, by decide⟩

/-- C10 amended: `SetType` validates the tag but does not protect an
already-set one: any call with a valid type (Text or File) assigns it,
also over a different previously-set tag; a call with an invalid type
throws and changes nothing; and `AcceptSomeData` never changes the
tag. -/
theorem C10_settype_amended :
    ∀ (f : MPFD.Field) (t : Nat) (data : List Nat),
      (t = MPFD.TextType ∨ t = MPFD.FileType →
        f.SetType t = Except.ok { f with type := t }) ∧
      (¬(t = MPFD.TextType ∨ t = MPFD.FileType) →
        f.SetType t =
          Except.error "Trying to set type of field, but type is incorrect.") ∧
      (∀ f2, f.AcceptSomeData data = Except.ok f2 → f2.type = f.type) := by
  intro f t data
  refine ⟨?_, ?_, fun f2 h => AcceptSomeData_preserves_type f data f2 h⟩
  · intro h
    simp [MPFD.Field.SetType, h]
  · intro h
    simp [MPFD.Field.SetType, h]

/-- C10 witness: the amended statement at concrete fields — a valid
`SetType`, an invalid `SetType`, and a type-preserving append. -/
theorem C10_settype_amended_witness :
    MPFD.Field.init.SetType MPFD.TextType =
      Except.ok { MPFD.Field.init with type := MPFD.TextType } ∧
    MPFD.Field.init.SetType 5 =
      Except.error "Trying to set type of field, but type is incorrect." ∧
    (⟨1, [0], [], "", 0⟩ : MPFD.Field).type =
      (⟨1, [], [], "", 0⟩ : MPFD.Field).type :=
  ⟨(C10_settype_amended MPFD.Field.init MPFD.TextType []).1 (Or.inl rfl),
   (C10_settype_amended MPFD.Field.init 5 []).2.1 (by decide),
   (C10_settype_amended (⟨1, [], [], "", 0⟩ : MPFD.Field) 1 []).2.2
     (⟨1, [0], [], "", 0⟩ : MPFD.Field) rfl⟩

end Navajo
